import Mathlib

/-!
Shallow embedding of the grouped seasonal-decomposition engine of
`streamlit_app.py` (class `TimeSeriesAnalysis`), together with the pandas
and statsmodels behaviour the engine relies on.  Tables are lists of rows,
machine floats are modelled by exact rationals, missing values (NaN) by an
explicit constructor, and Python exceptions by an `Except` monad.
-/

/-- One value held in a table cell: a number, a string, or NaN (missing). -/
inductive Cell where
  | num (q : ℚ)
  | strv (s : String)
  | na
deriving DecidableEq, Repr

/-- One label of a pandas index: a timestamp, a plain integer, a string,
or NaT (the missing-timestamp marker produced by coercing failures). -/
inductive IndexEntry where
  | ts (n : Nat)
  | intv (n : Int)
  | strv (s : String)
  | naT
deriving DecidableEq, Repr

/-- A pandas index: its labels plus whether the index is a DatetimeIndex. -/
structure PIndex where
  datetime : Bool
  entries : List IndexEntry
deriving DecidableEq, Repr

/-- A pandas Series: values (NaN as `none`) over an index. -/
structure PSeries where
  index : PIndex
  vals : List (Option ℚ)
deriving DecidableEq, Repr

/-- The statsmodels `DecomposeResult`: four series over the input's index. -/
structure DecompositionResult where
  observed : PSeries
  trend : PSeries
  seasonal : PSeries
  resid : PSeries
deriving DecidableEq, Repr

/-- One row of a table: its index label and its cells, in column order. -/
structure Row where
  idx : IndexEntry
  cells : List Cell
deriving DecidableEq, Repr

/-- A pandas DataFrame: named columns, rows, and the index's dtype flag. -/
structure DataFrame where
  columns : List String
  indexDatetime : Bool
  rows : List Row
deriving DecidableEq, Repr

/-- Python exceptions that can escape `decompose_series`. -/
inductive PyError where
  | keyError (col : String)
  | zeroDivisionError
  | typeError
deriving DecidableEq, Repr

/-- Errors raised inside the statsmodels `seasonal_decompose` call. -/
inductive SdError where
  | valueError
  | zeroDivisionError
deriving DecidableEq, Repr

/-- The position of a column name in a DataFrame, `none` when absent
(pandas raises `KeyError` on access in that case). -/
def colPos (df : DataFrame) (c : String) : Option Nat :=
  df.columns.indexOf? c

/-- Whether a column is present in the table. -/
def DataFrame.hasCol (df : DataFrame) (c : String) : Bool :=
  (colPos df c).isSome

/-- The cell of a row at a column position (missing positions read as NaN). -/
def cellAt (r : Row) (j : Nat) : Cell :=
  r.cells.getD j Cell.na

/-- Byte-wise string comparison, as Python compares the group labels. -/
def charsLe : List Char → List Char → Bool
  | [], _ => true
  | _ :: _, [] => false
  | c :: cs, d :: ds =>
    if c.toNat < d.toNat then true
    else if d.toNat < c.toNat then false
    else charsLe cs ds

/-- The order pandas sorts group keys by (`groupby` defaults to
`sort=True`; in a mixed column its safe sort puts numbers before
strings). -/
def cellLeB : Cell → Cell → Bool
  | Cell.num a, Cell.num b => decide (a ≤ b)
  | Cell.num _, _ => true
  | Cell.strv _, Cell.num _ => false
  | Cell.strv a, Cell.strv b => charsLe a.data b.data
  | Cell.strv _, _ => true
  | Cell.na, Cell.na => true
  | Cell.na, _ => false

/-- The grouping column's values over the rows, with NaN keys dropped
(`groupby` defaults to `dropna=True`). -/
def nonNaKeys (df : DataFrame) (jg : Nat) : List Cell :=
  (df.rows.map (fun r => cellAt r jg)).filter (fun c => decide (c ≠ Cell.na))

/-- Whether a key was already seen. -/
def seenB (k : Cell) : List Cell → Bool
  | [] => false
  | c :: cs => if c = k then true else seenB k cs

/-- Distinct values of a list, keeping first occurrences in order: the
keys already emitted are carried in `seen`. -/
def distinctAux : List Cell → List Cell → List Cell
  | [], _ => []
  | k :: ks, seen =>
    if seenB k seen then distinctAux ks seen
    else k :: distinctAux ks (k :: seen)

/-- Distinct values of a list, keeping first occurrences in order. -/
def distinctFirst (l : List Cell) : List Cell :=
  distinctAux l []

/-- The distinct group keys of the table, in first-encountered order. -/
def distinctGroups (df : DataFrame) (jg : Nat) : List Cell :=
  distinctFirst (nonNaKeys df jg)

/-- The group keys in the order `groupby` iterates them: distinct
non-NaN values of the grouping column, sorted. -/
def sortedKeys (df : DataFrame) (jg : Nat) : List Cell :=
  List.insertionSort (fun a b => cellLeB a b = true) (distinctGroups df jg)

/-- The rows of one partition, in their original order. -/
def groupRows (df : DataFrame) (jg : Nat) (k : Cell) : List Row :=
  df.rows.filter (fun r => decide (cellAt r jg = k))

/-- The rows of one partition that survive `dropna` on the value column. -/
def cleanRows (df : DataFrame) (jg jv : Nat) (k : Cell) : List Row :=
  (groupRows df jg k).filter (fun r => decide (cellAt r jv ≠ Cell.na))

/-- The number of non-missing observations of the value column in one
partition. -/
def nonNaCount (df : DataFrame) (jg jv : Nat) (k : Cell) : Nat :=
  (cleanRows df jg jv k).length

/-- Numeric content of a cell (`none` for NaN and for strings). -/
def toNum : Cell → Option ℚ
  | Cell.num q => some q
  | _ => none

/-- Whether a cell holds a string. -/
def isStrCell : Cell → Bool
  | Cell.strv _ => true
  | _ => false

/-- A centered window of half-width `h` around position `i`, when it fits. -/
def windowAt (xs : List ℚ) (i h : Nat) : Option (List ℚ) :=
  if h ≤ i ∧ i + h < xs.length then some ((xs.drop (i - h)).take (2 * h + 1))
  else none

/-- Mean of a window of an odd period: plain average over `p` points. -/
def oddAvg (p : Nat) (l : List ℚ) : ℚ :=
  l.sum / (p : ℚ)

/-- Mean of a window of an even period: the library's convolution weights
give the two edge points half weight, over `p + 1` points. -/
def evenAvg (p : Nat) (l : List ℚ) : ℚ :=
  ((l.headD 0 + l.getLastD 0) / 2 + ((l.drop 1).dropLast).sum) / (p : ℚ)

/-- The centered-moving-average trend of the library, `none` (NaN) where
the window does not fit (the default `extrapolate_trend=0`). -/
def trendVals (xs : List ℚ) (p : Nat) : List (Option ℚ) :=
  (List.range xs.length).map (fun i =>
    if p % 2 = 0 then (windowAt xs i (p / 2)).map (evenAvg p)
    else (windowAt xs i ((p - 1) / 2)).map (oddAvg p))

/-- The detrended series `x - trend` (NaN-propagating). -/
def detrendVals (xs : List ℚ) (trend : List (Option ℚ)) : List (Option ℚ) :=
  List.zipWith (fun x t => t.map (fun tv => x - tv)) xs trend

/-- The elements of `l` at positions congruent to `i` modulo `p`. -/
def everyNth (l : List (Option ℚ)) (i p : Nat) : List (Option ℚ) :=
  (l.enum.filter (fun jd => decide (jd.1 % p = i))).map Prod.snd

/-- The pandas NaN-skipping mean: NaN only when no value remains. -/
def nanmean (l : List (Option ℚ)) : Option ℚ :=
  let vs := l.filterMap id
  if vs.length = 0 then none else some (vs.sum / (vs.length : ℚ))

/-- The numpy mean: NaN when the list is empty or holds any NaN. -/
def meanOpt (l : List (Option ℚ)) : Option ℚ :=
  if l.length = 0 then none
  else if l.any (fun a => a.isNone) then none
  else some ((l.filterMap id).sum / (l.length : ℚ))

/-- Per-phase averages of the detrended series (`seasonal_mean`). -/
def periodAvgs (p : Nat) (detr : List (Option ℚ)) : List (Option ℚ) :=
  (List.range p).map (fun i => nanmean (everyNth detr i p))

/-- The phase averages re-centered around zero, as the additive model
subtracts their overall mean (NaN-propagating). -/
def demeanedAvgs (avgs : List (Option ℚ)) : List (Option ℚ) :=
  avgs.map (fun a =>
    match a, meanOpt avgs with
    | some x, some m => some (x - m)
    | _, _ => none)

/-- The seasonal component: the phase averages tiled over the series. -/
def seasonalVals (nobs p : Nat) (avgs : List (Option ℚ)) : List (Option ℚ) :=
  (List.range nobs).map (fun i => avgs.getD (i % p) none)

/-- The residual `detrended - seasonal` (NaN-propagating). -/
def residVals (detr seas : List (Option ℚ)) : List (Option ℚ) :=
  List.zipWith (fun d s =>
    match d, s with
    | some a, some b => some (a - b)
    | _, _ => none) detr seas

/-- Modelled from the statsmodels library (external to this repository):
`seasonal_decompose(x, model='additive', period=p)` on a series with no
missing values.  It raises `ValueError` when the series is shorter than
two complete cycles; a negative period makes its internal filter/tiling
construction raise `ValueError` as well, while a zero period raises
`ZeroDivisionError` at the integer division `nobs // period`.  On success
every component is a series over the input's own index. -/
def seasonal_decompose (xs : List ℚ) (ix : PIndex) (p : Int) :
    Except SdError DecompositionResult :=
  if p < 0 then Except.error SdError.valueError
  else if p = 0 then Except.error SdError.zeroDivisionError
  else if (xs.length : Int) < 2 * p then Except.error SdError.valueError
  else
    let pn := p.toNat
    let trend := trendVals xs pn
    let detr := detrendVals xs trend
    let avgs := demeanedAvgs (periodAvgs pn detr)
    let seas := seasonalVals xs.length pn avgs
    Except.ok
      { observed := ⟨ix, xs.map some⟩
        trend := ⟨ix, trend⟩
        seasonal := ⟨ix, seas⟩
        resid := ⟨ix, residVals detr seas⟩ }

/-- The numeric series of one partition after projection and `dropna`,
in row order: exactly the non-missing observations of the value column. -/
def groupSeries (df : DataFrame) (jg jv : Nat) (k : Cell) : List ℚ :=
  (cleanRows df jg jv k).filterMap (fun r => toNum (cellAt r jv))

/-- The index of one partition's cleaned series, inheriting the table's
index dtype. -/
def groupIndex (df : DataFrame) (jg jv : Nat) (k : Cell) : PIndex :=
  ⟨df.indexDatetime, (cleanRows df jg jv k).map Row.idx⟩

/-- The body of the `decompose_series` loop for one partition
(`streamlit_app.py:39-47`): project to the value column (`KeyError` when
it is absent), drop missing values, feed the series to the library.  A
string value makes the library's finiteness check raise an uncaught
`TypeError`; a `ValueError` is swallowed and the partition skipped. -/
def processGroup (df : DataFrame) (jg : Nat) (vcol : String) (p : Int)
    (k : Cell) : Except PyError (Option (Cell × DecompositionResult)) :=
  match colPos df vcol with
  | none => Except.error (PyError.keyError vcol)
  | some jv =>
    if (cleanRows df jg jv k).any (fun r => isStrCell (cellAt r jv)) then
      Except.error PyError.typeError
    else
      match seasonal_decompose (groupSeries df jg jv k)
          (groupIndex df jg jv k) p with
      | Except.ok d => Except.ok (some (k, d))
      | Except.error SdError.valueError => Except.ok none
      | Except.error SdError.zeroDivisionError =>
          Except.error PyError.zeroDivisionError

/-- The `decompose_series` loop over the groups, in iteration order; an
uncaught exception aborts the remaining groups. -/
def runGroups (df : DataFrame) (jg : Nat) (vcol : String) (p : Int) :
    List Cell → Except PyError (List (Cell × DecompositionResult))
  | [] => Except.ok []
  | k :: ks =>
    match processGroup df jg vcol p k with
    | Except.error e => Except.error e
    | Except.ok r =>
      match runGroups df jg vcol p ks with
      | Except.error e => Except.error e
      | Except.ok rest =>
        Except.ok (match r with | none => rest | some kd => kd :: rest)

/-- The state of a `TimeSeriesAnalysis` object: the constructor arguments
plus the `results` mapping and the `successful_groups` list. -/
structure TimeSeriesAnalysis where
  df : DataFrame
  groupby_col : String
  value_col : String
  period : Int
  results : List (Cell × DecompositionResult)
  successful_groups : List Cell
deriving DecidableEq, Repr

/-- `TimeSeriesAnalysis.__init__` (`streamlit_app.py:29-35`): a fresh
object with empty `results` and `successful_groups` (the app constructs
it with the default `period=12`). -/
def mkTimeSeriesAnalysis (df : DataFrame) (g v : String) (p : Int) :
    TimeSeriesAnalysis :=
  ⟨df, g, v, p, [], []⟩

/-- `decompose_series` (`streamlit_app.py:37-47`): group the table by the
grouping column (`KeyError` when absent; keys are iterated in pandas'
sorted order with NaN keys dropped), process every group, store each
successful decomposition and record its key. -/
def decompose_series (s : TimeSeriesAnalysis) :
    Except PyError TimeSeriesAnalysis :=
  match colPos s.df s.groupby_col with
  | none => Except.error (PyError.keyError s.groupby_col)
  | some jg =>
    match runGroups s.df jg s.value_col s.period (sortedKeys s.df jg) with
    | Except.error e => Except.error e
    | Except.ok kds =>
      Except.ok { s with
        results := s.results ++ kds
        successful_groups := s.successful_groups ++ kds.map Prod.fst }

/-- The lookup `plot_decomposition` performs: the stored result for a
group, `none` when the key is not in `results`. -/
def result_for (s : TimeSeriesAnalysis) (g : Cell) :
    Option DecompositionResult :=
  (s.results.find? (fun kv => decide (kv.1 = g))).map Prod.snd

/-- Parse a "YYYY-MM" label, the format `plot_decomposition` coerces
non-datetime indexes with; months are encoded as `year * 12 + month - 1`. -/
def parseYM (s : String) : Option Nat :=
  match s.data with
  | [a, b, c, d, dash, e, f] =>
    if (dash = '-' ∧ a.isDigit ∧ b.isDigit ∧ c.isDigit ∧ d.isDigit ∧
        e.isDigit ∧ f.isDigit) then
      let y := ((a.toNat - 48) * 1000 + (b.toNat - 48) * 100 +
                (c.toNat - 48) * 10 + (d.toNat - 48))
      let m := (e.toNat - 48) * 10 + (f.toNat - 48)
      if 1 ≤ m ∧ m ≤ 12 then some (y * 12 + (m - 1)) else none
    else none
  | _ => none

/-- `pd.to_datetime(..., format="%Y-%m", errors="coerce")` on one index
label: labels that fail to parse become NaT. -/
def coerceEntry : IndexEntry → IndexEntry
  | IndexEntry.ts n => IndexEntry.ts n
  | IndexEntry.strv s =>
    match parseYM s with
    | some n => IndexEntry.ts n
    | none => IndexEntry.naT
  | IndexEntry.intv _ => IndexEntry.naT
  | IndexEntry.naT => IndexEntry.naT

/-- The index coercion of `plot_decomposition` (`streamlit_app.py:56-59`):
a series whose index is already a DatetimeIndex is left alone, any other
index is replaced in place by its coerced datetime conversion. -/
def coerceSeries (ps : PSeries) : PSeries :=
  if ps.index.datetime then ps
  else ⟨⟨true, ps.index.entries.map coerceEntry⟩, ps.vals⟩

/-- The in-place index coercion applied to all four stored components. -/
def coerceResult (d : DecompositionResult) : DecompositionResult :=
  { observed := coerceSeries d.observed
    trend := coerceSeries d.trend
    seasonal := coerceSeries d.seasonal
    resid := coerceSeries d.resid }

/-- Replace the value stored under the first occurrence of a key: the
Python mutation acts on the one object the dict lookup returned. -/
def replaceFirst : List (Cell × DecompositionResult) → Cell →
    DecompositionResult → List (Cell × DecompositionResult)
  | [], _, _ => []
  | kv :: rest, g, d =>
    if kv.1 = g then (g, d) :: rest else kv :: replaceFirst rest g d

/-- The visible outcome of `plot_decomposition`: a warning for a missing
group, or a rendered figure. -/
inductive PlotOutcome where
  | warnMissing (g : Cell)
  | plotted
deriving DecidableEq, Repr

/-- `plot_decomposition` (`streamlit_app.py:49-125`): warn and return when
the group has no stored result; otherwise coerce the four component
indexes in place on the stored result and render the figure. -/
def plot_decomposition (s : TimeSeriesAnalysis) (g : Cell) :
    TimeSeriesAnalysis × PlotOutcome :=
  match result_for s g with
  | none => (s, PlotOutcome.warnMissing g)
  | some d =>
    ({ s with results := replaceFirst s.results g (coerceResult d) },
     PlotOutcome.plotted)

/-- The succeeded list of a finished run (empty when the run aborted). -/
def succeededOf (r : Except PyError TimeSeriesAnalysis) : List Cell :=
  match r with
  | Except.ok s => s.successful_groups
  | Except.error _ => []

/-! ### Structural lemmas about the grouping and the loop -/

lemma seenB_eq_true {k : Cell} :
    ∀ {seen : List Cell}, seenB k seen = true ↔ k ∈ seen := by
  intro seen
  induction seen with
  | nil => simp [seenB]
  | cons c cs ih =>
    unfold seenB
    by_cases hc : c = k
    · simp [hc]
    · simp only [if_neg hc, ih, List.mem_cons]
      constructor
      · exact Or.inr
      · rintro (h | h)
        · exact absurd h.symm hc
        · exact h

lemma distinctAux_not_mem_seen :
    ∀ (l seen : List Cell), ∀ x ∈ distinctAux l seen, x ∉ seen := by
  intro l
  induction l with
  | nil => intro seen x hx; simp [distinctAux] at hx
  | cons k ks ih =>
    intro seen x hx
    unfold distinctAux at hx
    by_cases hk : seenB k seen = true
    · rw [if_pos hk] at hx
      exact ih seen x hx
    · rw [if_neg hk] at hx
      rcases List.mem_cons.mp hx with h | h
      · intro hmem
        exact hk (seenB_eq_true.mpr (h ▸ hmem))
      · intro hmem
        exact ih (k :: seen) x h (List.mem_cons_of_mem _ hmem)

lemma distinctAux_nodup : ∀ l seen : List Cell, (distinctAux l seen).Nodup := by
  intro l
  induction l with
  | nil => intro seen; simp [distinctAux]
  | cons k ks ih =>
    intro seen
    unfold distinctAux
    by_cases hk : seenB k seen = true
    · rw [if_pos hk]
      exact ih seen
    · rw [if_neg hk]
      refine List.nodup_cons.mpr ⟨?_, ih (k :: seen)⟩
      intro hmem
      exact distinctAux_not_mem_seen ks (k :: seen) k hmem
        (List.mem_cons_self _ _)

lemma distinctFirst_nodup (l : List Cell) : (distinctFirst l).Nodup :=
  distinctAux_nodup l []

lemma sortedKeys_perm (df : DataFrame) (jg : Nat) :
    List.Perm (sortedKeys df jg) (distinctGroups df jg) :=
  List.perm_insertionSort _ _

lemma sortedKeys_nodup (df : DataFrame) (jg : Nat) :
    (sortedKeys df jg).Nodup :=
  ((sortedKeys_perm df jg).nodup_iff).mpr (distinctFirst_nodup _)

lemma processGroup_fst {df : DataFrame} {jg : Nat} {v : String} {p : Int}
    {k : Cell} {kd : Cell × DecompositionResult}
    (h : processGroup df jg v p k = Except.ok (some kd)) : kd.1 = k := by
  unfold processGroup at h
  split at h
  · exact absurd h (by simp)
  · split at h
    · exact absurd h (by simp)
    · split at h
      · simp only [Except.ok.injEq, Option.some.injEq] at h
        rw [← h]
      · exact absurd h (by simp)
      · exact absurd h (by simp)

lemma runGroups_sublist {df : DataFrame} {jg : Nat} {v : String} {p : Int} :
    ∀ {ks : List Cell} {kds : List (Cell × DecompositionResult)},
      runGroups df jg v p ks = Except.ok kds →
      List.Sublist (kds.map Prod.fst) ks := by
  intro ks
  induction ks with
  | nil =>
    intro kds h
    simp only [runGroups, Except.ok.injEq] at h
    simp [← h]
  | cons k ks ih =>
    intro kds h
    unfold runGroups at h
    split at h
    · exact absurd h (by simp)
    · rename_i r hr
      split at h
      · exact absurd h (by simp)
      · rename_i rest hrest
        simp only [Except.ok.injEq] at h
        cases r with
        | none =>
          simp only at h
          exact (h ▸ ih hrest).cons k
        | some kd =>
          simp only at h
          rw [← h, List.map_cons, processGroup_fst hr]
          exact (ih hrest).cons₂ k

lemma cleanRows_sub_rows {df : DataFrame} {jg jv : Nat} {k : Cell} :
    ∀ r ∈ cleanRows df jg jv k, r ∈ df.rows := by
  intro r hr
  exact List.mem_of_mem_filter (List.mem_of_mem_filter hr)

lemma cleanRows_noStr {df : DataFrame} {jg jv : Nat} {k : Cell}
    (hnum : ∀ r ∈ df.rows, isStrCell (cellAt r jv) = false) :
    ((cleanRows df jg jv k).any (fun r => isStrCell (cellAt r jv))) = false := by
  rw [List.any_eq_false]
  intro r hr
  simp [hnum r (cleanRows_sub_rows r hr)]

lemma filterMap_length_of_isSome {α β : Type} (f : α → Option β) :
    ∀ l : List α, (∀ x ∈ l, (f x).isSome) → (l.filterMap f).length = l.length := by
  intro l
  induction l with
  | nil => intro _; rfl
  | cons x xs ih =>
    intro h
    rw [List.filterMap_cons]
    cases hx : f x with
    | none =>
      exact absurd (h x (List.mem_cons_self _ _)) (by simp [hx])
    | some b =>
      simp only [List.length_cons]
      rw [ih (fun y hy => h y (List.mem_cons_of_mem _ hy))]

lemma groupSeries_length {df : DataFrame} {jg jv : Nat} {k : Cell}
    (hnum : ∀ r ∈ df.rows, isStrCell (cellAt r jv) = false) :
    (groupSeries df jg jv k).length = nonNaCount df jg jv k := by
  unfold groupSeries nonNaCount
  apply filterMap_length_of_isSome
  intro r hr
  have h1 : cellAt r jv ≠ Cell.na := by
    have := List.of_mem_filter hr
    simpa using this
  have h2 : isStrCell (cellAt r jv) = false :=
    hnum r (cleanRows_sub_rows r hr)
  cases hc : cellAt r jv with
  | num q => simp [toNum]
  | strv s => rw [hc] at h2; simp [isStrCell] at h2
  | na => exact absurd hc h1

lemma processGroup_of_le {df : DataFrame} {jg jv : Nat} {v : String}
    {p : Int} {k : Cell} (hv : colPos df v = some jv)
    (hnum : ∀ r ∈ df.rows, isStrCell (cellAt r jv) = false) (hp : 0 < p)
    (hcount : 2 * p ≤ (nonNaCount df jg jv k : Int)) :
    ∃ d, processGroup df jg v p k = Except.ok (some (k, d)) ∧
      d.observed.vals = (groupSeries df jg jv k).map some ∧
      d.observed.index = groupIndex df jg jv k := by
  unfold processGroup
  rw [hv]
  simp only [cleanRows_noStr hnum, Bool.false_eq_true, if_false]
  unfold seasonal_decompose
  rw [if_neg (by omega), if_neg (by omega),
    if_neg (by rw [groupSeries_length hnum]; omega)]
  exact ⟨_, rfl, rfl, rfl⟩

lemma processGroup_of_lt {df : DataFrame} {jg jv : Nat} {v : String}
    {p : Int} {k : Cell} (hv : colPos df v = some jv)
    (hnum : ∀ r ∈ df.rows, isStrCell (cellAt r jv) = false) (hp : 0 < p)
    (hcount : (nonNaCount df jg jv k : Int) < 2 * p) :
    processGroup df jg v p k = Except.ok none := by
  unfold processGroup
  rw [hv]
  simp only [cleanRows_noStr hnum, Bool.false_eq_true, if_false]
  unfold seasonal_decompose
  rw [if_neg (by omega), if_neg (by omega),
    if_pos (by rw [groupSeries_length hnum]; omega)]

/-- Under a present, purely numeric value column and a positive period,
the loop never aborts and succeeds on exactly the groups with at least
`2 * period` non-missing observations, keeping their iteration order and
storing the cleaned series as each observed component. -/
lemma runGroups_char {df : DataFrame} {jg jv : Nat} {v : String} {p : Int}
    (hv : colPos df v = some jv)
    (hnum : ∀ r ∈ df.rows, isStrCell (cellAt r jv) = false) (hp : 0 < p) :
    ∀ ks : List Cell, ∃ kds,
      runGroups df jg v p ks = Except.ok kds ∧
      kds.map Prod.fst =
        ks.filter (fun k => decide (2 * p ≤ (nonNaCount df jg jv k : Int))) ∧
      ∀ kd ∈ kds,
        kd.2.observed.vals = (groupSeries df jg jv kd.1).map some ∧
        kd.2.observed.index = groupIndex df jg jv kd.1 := by
  intro ks
  induction ks with
  | nil => exact ⟨[], rfl, rfl, by intro kd h; simp at h⟩
  | cons k ks ih =>
    obtain ⟨kds, hrun, hmap, hprops⟩ := ih
    by_cases hc : 2 * p ≤ (nonNaCount df jg jv k : Int)
    · obtain ⟨d, hpg, hobs, hix⟩ := processGroup_of_le hv hnum hp hc
      refine ⟨(k, d) :: kds, ?_, ?_, ?_⟩
      · unfold runGroups
        rw [hpg, hrun]
      · rw [List.map_cons, List.filter_cons_of_pos (by simpa using hc), hmap]
      · intro kd hkd
        rcases List.mem_cons.mp hkd with h | h
        · rw [h]; exact ⟨hobs, hix⟩
        · exact hprops kd h
    · push_neg at hc
      refine ⟨kds, ?_, ?_, hprops⟩
      · unfold runGroups
        rw [processGroup_of_lt hv hnum hp hc, hrun]
      · rw [List.filter_cons_of_neg (by simpa using not_le.mpr hc), hmap]

lemma processGroup_noCol {df : DataFrame} {jg : Nat} {v : String} {p : Int}
    {k : Cell} (hv : colPos df v = none) :
    processGroup df jg v p k = Except.error (PyError.keyError v) := by
  unfold processGroup
  rw [hv]

lemma runGroups_noCol_ok {df : DataFrame} {jg : Nat} {v : String} {p : Int}
    (hv : colPos df v = none) :
    ∀ {ks : List Cell} {kds : List (Cell × DecompositionResult)},
      runGroups df jg v p ks = Except.ok kds → kds = [] := by
  intro ks kds h
  cases ks with
  | nil => simpa [runGroups] using h.symm
  | cons k ks =>
    unfold runGroups at h
    rw [processGroup_noCol hv] at h
    exact absurd h (by simp)

lemma runGroups_neg_period {df : DataFrame} {jg : Nat} {v : String} {p : Int}
    (hp : p < 0) :
    ∀ {ks : List Cell} {kds : List (Cell × DecompositionResult)},
      runGroups df jg v p ks = Except.ok kds → kds = [] := by
  intro ks
  induction ks with
  | nil => intro kds h; simpa [runGroups] using h.symm
  | cons k ks ih =>
    intro kds h
    unfold runGroups at h
    cases hpg : processGroup df jg v p k with
    | error e => rw [hpg] at h; exact absurd h (by simp)
    | ok r =>
      rw [hpg] at h
      cases hrest : runGroups df jg v p ks with
      | error e => rw [hrest] at h; exact absurd h (by simp)
      | ok rest =>
        rw [hrest] at h
        have hr : r = none := by
          unfold processGroup at hpg
          split at hpg
          · exact absurd hpg (by simp)
          · split at hpg
            · exact absurd hpg (by simp)
            · split at hpg
              · rename_i d hd
                unfold seasonal_decompose at hd
                rw [if_pos hp] at hd
                exact absurd hd (by simp)
              · simp only [Except.ok.injEq] at hpg
                exact hpg.symm
              · exact absurd hpg (by simp)
        subst hr
        simp only [Except.ok.injEq] at h
        exact h ▸ ih hrest

lemma replaceFirst_of_find? :
    ∀ (l : List (Cell × DecompositionResult)) (g : Cell)
      (d : DecompositionResult),
      (l.find? (fun kv => decide (kv.1 = g))).map Prod.snd = some d →
      replaceFirst l g d = l := by
  intro l
  induction l with
  | nil => intro g d h; simp [List.find?] at h
  | cons kv rest ih =>
    intro g d h
    unfold replaceFirst
    by_cases hg : kv.1 = g
    · rw [if_pos hg]
      rw [List.find?_cons_of_pos _ (by simp [hg])] at h
      simp only [Option.map, Option.some.injEq] at h
      rw [← hg, ← h]
    · rw [if_neg hg]
      rw [List.find?_cons_of_neg _ (by simp [hg])] at h
      rw [ih g d h]

/-! ### Concrete tables and states used as witnesses and counterexamples -/

/-- A table whose groups first appear in the order "B", "A", each with
two non-missing observations. -/
def dfBA : DataFrame :=
  ⟨["G", "V"], true,
   [⟨IndexEntry.ts 0, [Cell.strv "B", Cell.num 1]⟩,
    ⟨IndexEntry.ts 1, [Cell.strv "B", Cell.num 2]⟩,
    ⟨IndexEntry.ts 2, [Cell.strv "A", Cell.num 3]⟩,
    ⟨IndexEntry.ts 3, [Cell.strv "A", Cell.num 4]⟩]⟩

/-- A table with a grouping column but no "V" column, and no rows. -/
def dfNoV : DataFrame := ⟨["G"], true, []⟩

/-- A one-row table with a grouping column but no "V" column. -/
def dfC4 : DataFrame :=
  ⟨["G"], true, [⟨IndexEntry.ts 0, [Cell.num 1]⟩]⟩

/-- One row of the 36-month witness table: month 7 (position 6) has a
missing value, every other month a number. -/
def mkRow36 (i : Nat) : Row :=
  ⟨IndexEntry.ts i,
   [Cell.strv "A",
    if i = 6 then Cell.na else Cell.num ((i : ℚ) + 1)]⟩

/-- A table with one group of 36 monthly rows, one of them missing. -/
def df36 : DataFrame := ⟨["G", "V"], true, (List.range 36).map mkRow36⟩

/-- A two-row table whose index is a plain integer index, not a
DatetimeIndex. -/
def dfInt : DataFrame :=
  ⟨["G", "V"], false,
   [⟨IndexEntry.intv 0, [Cell.num 1, Cell.num 5]⟩,
    ⟨IndexEntry.intv 1, [Cell.num 1, Cell.num 7]⟩]⟩

/-- The result of `.ok`, or the supplied state when the run aborted. -/
def okState (r : Except PyError TimeSeriesAnalysis)
    (dflt : TimeSeriesAnalysis) : TimeSeriesAnalysis :=
  match r with
  | Except.ok s => s
  | Except.error _ => dflt

/-- The analysis state after decomposing `dfInt` with period 1: its one
stored result carries the table's non-datetime integer index. -/
def c8State : TimeSeriesAnalysis :=
  okState (decompose_series (mkTimeSeriesAnalysis dfInt "G" "V" 1))
    (mkTimeSeriesAnalysis dfInt "G" "V" 1)

/-- A stored series over a proper DatetimeIndex. -/
def goodSeries : PSeries := ⟨⟨true, [IndexEntry.ts 0]⟩, [none]⟩

/-- A stored decomposition whose four components all have DatetimeIndexes. -/
def goodResult : DecompositionResult :=
  ⟨goodSeries, goodSeries, goodSeries, goodSeries⟩

/-- A state holding one decomposition with DatetimeIndex components. -/
def goodState : TimeSeriesAnalysis :=
  ⟨dfNoV, "G", "V", 12, [(Cell.strv "A", goodResult)], [Cell.strv "A"]⟩

lemma decompose_series_eq {s : TimeSeriesAnalysis} {jg : Nat}
    (hg : colPos s.df s.groupby_col = some jg)
    {kds : List (Cell × DecompositionResult)}
    (hrun : runGroups s.df jg s.value_col s.period (sortedKeys s.df jg) =
      Except.ok kds) :
    decompose_series s = Except.ok { s with
      results := s.results ++ kds
      successful_groups := s.successful_groups ++ kds.map Prod.fst } := by
  simp only [decompose_series, hg, hrun]

lemma decompose_series_ok_inv {s s' : TimeSeriesAnalysis}
    (h : decompose_series s = Except.ok s') :
    ∃ jg kds, colPos s.df s.groupby_col = some jg ∧
      runGroups s.df jg s.value_col s.period (sortedKeys s.df jg) =
        Except.ok kds ∧
      s' = { s with
        results := s.results ++ kds
        successful_groups := s.successful_groups ++ kds.map Prod.fst } := by
  unfold decompose_series at h
  split at h
  · exact absurd h (by simp)
  · rename_i jg hg
    split at h
    · exact absurd h (by simp)
    · rename_i kds hrun
      simp only [Except.ok.injEq] at h
      exact ⟨jg, kds, hg, hrun, h.symm⟩

/-! ### Claims -/

/-- **C1** — For every input table and positive period, `decompose_series`
processes every partition and one partition's failure never aborts the
run: with a present grouping column, a present and purely numeric value
column and a positive period the call returns normally, the succeeded
list has exactly N − K entries (N the number of distinct groups, K the
number of groups with fewer than `2 * period` non-missing observations),
and every succeeded group has at least `2 * period` non-missing
observations. -/
theorem c1_failure_isolation (df : DataFrame) (g v : String) (p : Int)
    (jg jv : Nat) (hg : colPos df g = some jg) (hv : colPos df v = some jv)
    (hnum : ∀ r ∈ df.rows, isStrCell (cellAt r jv) = false) (hp : 0 < p) :
    ∃ s', decompose_series (mkTimeSeriesAnalysis df g v p) = Except.ok s' ∧
      s'.successful_groups.length =
        (distinctGroups df jg).length -
          ((distinctGroups df jg).filter
            (fun k => decide ((nonNaCount df jg jv k : Int) < 2 * p))).length ∧
      ∀ k ∈ s'.successful_groups, 2 * p ≤ (nonNaCount df jg jv k : Int) := by
  obtain ⟨kds, hrun, hmap, -⟩ := runGroups_char hv hnum hp (sortedKeys df jg)
  refine ⟨_, decompose_series_eq hg hrun, ?_, ?_⟩
  · simp only [mkTimeSeriesAnalysis, List.nil_append]
    rw [hmap]
    have hperm :
        List.Perm
          ((sortedKeys df jg).filter
            (fun k => decide (2 * p ≤ (nonNaCount df jg jv k : Int))))
          ((distinctGroups df jg).filter
            (fun k => decide (2 * p ≤ (nonNaCount df jg jv k : Int)))) :=
      (sortedKeys_perm df jg).filter _
    rw [hperm.length_eq]
    rw [List.filter_congr (l := distinctGroups df jg)
      (q := fun k => !(decide ((nonNaCount df jg jv k : Int) < 2 * p)))
      (by intro k _
          show decide (2 * p ≤ (nonNaCount df jg jv k : Int)) =
            !(decide ((nonNaCount df jg jv k : Int) < 2 * p))
          rw [← decide_not]
          exact decide_eq_decide.mpr not_lt.symm)]
    have htot :=
      List.length_eq_length_filter_add (l := distinctGroups df jg)
        (fun k => decide ((nonNaCount df jg jv k : Int) < 2 * p))
    omega
  · intro k hk
    simp only [mkTimeSeriesAnalysis, List.nil_append] at hk
    rw [hmap] at hk
    exact of_decide_eq_true (List.mem_filter.mp hk).2

/-- A table with two groups: group `1` has two non-missing observations,
group `2` only one. -/
def dfC1 : DataFrame :=
  ⟨["G", "V"], true,
   [⟨IndexEntry.ts 0, [Cell.num 1, Cell.num 10]⟩,
    ⟨IndexEntry.ts 1, [Cell.num 1, Cell.num 11]⟩,
    ⟨IndexEntry.ts 2, [Cell.num 2, Cell.num 12]⟩]⟩

/-- Witness for **C1** at `dfC1` with period 1: N = 2 groups, K = 1 of
them too short, so exactly 1 succeeds. -/
theorem c1_failure_isolation_witness :
    colPos dfC1 "G" = some 0 ∧ colPos dfC1 "V" = some 1 ∧ (0 : Int) < 1 ∧
    ∃ s', decompose_series (mkTimeSeriesAnalysis dfC1 "G" "V" 1) =
        Except.ok s' ∧
      s'.successful_groups.length =
        (distinctGroups dfC1 0).length -
          ((distinctGroups dfC1 0).filter
            (fun k => decide ((nonNaCount dfC1 0 1 k : Int) < 2 * 1))).length ∧
      ∀ k ∈ s'.successful_groups, 2 * 1 ≤ (nonNaCount dfC1 0 1 k : Int) :=
  ⟨rfl, rfl, by decide,
    c1_failure_isolation dfC1 "G" "V" 1 0 1 rfl rfl (by decide) (by decide)⟩

/-- **C2** (amended) — The succeeded list is a subsequence of the groups
in pandas' iteration order, which is the *sorted* order of the distinct
group values, not the order in which group values first appear in the
table. -/
theorem c2_order_sorted (df : DataFrame) (g v : String) (p : Int)
    (jg : Nat) (s' : TimeSeriesAnalysis) (hg : colPos df g = some jg)
    (h : decompose_series (mkTimeSeriesAnalysis df g v p) = Except.ok s') :
    List.Sublist s'.successful_groups (sortedKeys df jg) := by
  obtain ⟨jg', kds, hg', hrun, hs⟩ := decompose_series_ok_inv h
  simp only [mkTimeSeriesAnalysis] at hg' hrun hs
  rw [hg] at hg'
  have hj : jg = jg' := by
    simpa using hg'
  subst hj
  subst hs
  simp only [mkTimeSeriesAnalysis, List.nil_append]
  exact runGroups_sublist hrun

/-- **C2** counterexample — On `dfBA` the groups first appear in the
order "B", "A", but the succeeded list comes out in sorted order
["A", "B"], which is not a subsequence of the first-appearance order. -/
theorem c2_order_counterexample :
    succeededOf (decompose_series (mkTimeSeriesAnalysis dfBA "G" "V" 1)) =
      [Cell.strv "A", Cell.strv "B"] ∧
    distinctGroups dfBA 0 = [Cell.strv "B", Cell.strv "A"] ∧
    ¬ List.Sublist [Cell.strv "A", Cell.strv "B"]
        [Cell.strv "B", Cell.strv "A"] :=
  ⟨by decide, by decide, by decide⟩

/-- Witness for **C2** (amended) at `dfBA` with period 12 (both groups
too short, so the succeeded list is empty and trivially a subsequence of
the sorted key order). -/
theorem c2_order_sorted_witness :
    colPos dfBA "G" = some 0 ∧
    decompose_series (mkTimeSeriesAnalysis dfBA "G" "V" 12) =
      Except.ok (mkTimeSeriesAnalysis dfBA "G" "V" 12) ∧
    List.Sublist (mkTimeSeriesAnalysis dfBA "G" "V" 12).successful_groups
      (sortedKeys dfBA 0) :=
  ⟨rfl, rfl, c2_order_sorted dfBA "G" "V" 12 0 _ rfl rfl⟩

/-- **C3** — Each invocation of the decomposition step runs on a freshly
constructed analysis object (lines 187-188 of the app): that object holds
no results and no succeeded groups from any earlier invocation, and two
invocations on identically constructed objects return identical states,
decomposition values included. -/
theorem c3_fresh_idempotent (df : DataFrame) (g v : String) (p : Int)
    (s₁ s₂ : TimeSeriesAnalysis)
    (h1 : s₁ = mkTimeSeriesAnalysis df g v p)
    (h2 : s₂ = mkTimeSeriesAnalysis df g v p) :
    s₁.results = [] ∧ s₁.successful_groups = [] ∧
    decompose_series s₁ = decompose_series s₂ := by
  subst h1
  subst h2
  exact ⟨rfl, rfl, rfl⟩

/-- Witness for **C3** at `dfBA`. -/
theorem c3_fresh_idempotent_witness :
    (mkTimeSeriesAnalysis dfBA "G" "V" 12).results = [] ∧
    (mkTimeSeriesAnalysis dfBA "G" "V" 12).successful_groups = [] ∧
    decompose_series (mkTimeSeriesAnalysis dfBA "G" "V" 12) =
      decompose_series (mkTimeSeriesAnalysis dfBA "G" "V" 12) :=
  c3_fresh_idempotent dfBA "G" "V" 12 _ _ rfl rfl

/-- **C9** — `decompose_series` leaves the input table (and the other
constructor arguments) unchanged: the returned state carries the same
`df`, grouping column, value column and period; per-partition projection
and `dropna` operate on fresh lists. -/
theorem c9_input_unchanged (s s' : TimeSeriesAnalysis)
    (h : decompose_series s = Except.ok s') :
    s'.df = s.df ∧ s'.groupby_col = s.groupby_col ∧
    s'.value_col = s.value_col ∧ s'.period = s.period := by
  obtain ⟨jg, kds, -, -, hs⟩ := decompose_series_ok_inv h
  subst hs
  exact ⟨rfl, rfl, rfl, rfl⟩

/-- Witness for **C9** at `dfBA` with period 12. -/
theorem c9_input_unchanged_witness :
    decompose_series (mkTimeSeriesAnalysis dfBA "G" "V" 12) =
      Except.ok (mkTimeSeriesAnalysis dfBA "G" "V" 12) ∧
    ((mkTimeSeriesAnalysis dfBA "G" "V" 12).df =
        (mkTimeSeriesAnalysis dfBA "G" "V" 12).df ∧
      (mkTimeSeriesAnalysis dfBA "G" "V" 12).groupby_col =
        (mkTimeSeriesAnalysis dfBA "G" "V" 12).groupby_col ∧
      (mkTimeSeriesAnalysis dfBA "G" "V" 12).value_col =
        (mkTimeSeriesAnalysis dfBA "G" "V" 12).value_col ∧
      (mkTimeSeriesAnalysis dfBA "G" "V" 12).period =
        (mkTimeSeriesAnalysis dfBA "G" "V" 12).period) :=
  ⟨rfl, c9_input_unchanged _ _ rfl⟩

/-- **C10** — After one `decompose_series` call on a freshly constructed
analysis object, the succeeded list has no duplicate keys and the keys of
the `results` mapping are exactly the succeeded list. -/
theorem c10_results_succeeded_agree (df : DataFrame) (g v : String)
    (p : Int) (s' : TimeSeriesAnalysis)
    (h : decompose_series (mkTimeSeriesAnalysis df g v p) = Except.ok s') :
    s'.successful_groups.Nodup ∧
    s'.results.map Prod.fst = s'.successful_groups := by
  obtain ⟨jg, kds, hg, hrun, hs⟩ := decompose_series_ok_inv h
  subst hs
  constructor
  · simp only [mkTimeSeriesAnalysis, List.nil_append]
    exact (runGroups_sublist hrun).nodup (sortedKeys_nodup _ _)
  · simp [mkTimeSeriesAnalysis]

/-- Witness for **C10** at `dfBA` with period 12. -/
theorem c10_results_succeeded_agree_witness :
    decompose_series (mkTimeSeriesAnalysis dfBA "G" "V" 12) =
      Except.ok (mkTimeSeriesAnalysis dfBA "G" "V" 12) ∧
    ((mkTimeSeriesAnalysis dfBA "G" "V" 12).successful_groups.Nodup ∧
      (mkTimeSeriesAnalysis dfBA "G" "V" 12).results.map Prod.fst =
        (mkTimeSeriesAnalysis dfBA "G" "V" 12).successful_groups) :=
  ⟨rfl, c10_results_succeeded_agree dfBA "G" "V" 12 _ rfl⟩

lemma decompose_series_runErr {s : TimeSeriesAnalysis} {jg : Nat}
    {e : PyError} (hg : colPos s.df s.groupby_col = some jg)
    (hrun : runGroups s.df jg s.value_col s.period (sortedKeys s.df jg) =
      Except.error e) :
    decompose_series s = Except.error e := by
  simp only [decompose_series, hg, hrun]

/-- **C4** (amended) — When `groupby_col` is present but `value_col` is
absent: if the table has at least one partition, `decompose_series`
raises `KeyError` at the first partition's projection, so no partition
contributes a result; but when there is no partition at all the call
returns normally with an empty results mapping and empty succeeded list
instead of failing fast.  Either way no partition contributes a result. -/
theorem c4_missing_value_col (df : DataFrame) (g v : String) (p : Int)
    (hv : DataFrame.hasCol df v = false) :
    (∀ s', decompose_series (mkTimeSeriesAnalysis df g v p) = Except.ok s' →
      s'.results = [] ∧ s'.successful_groups = []) ∧
    (∀ jg, colPos df g = some jg → sortedKeys df jg ≠ [] →
      decompose_series (mkTimeSeriesAnalysis df g v p) =
        Except.error (PyError.keyError v)) := by
  have hvn : colPos df v = none := by
    unfold DataFrame.hasCol at hv
    cases hc : colPos df v with
    | none => rfl
    | some j => rw [hc] at hv; simp at hv
  constructor
  · intro s' h
    obtain ⟨jg, kds, hg, hrun, hs⟩ := decompose_series_ok_inv h
    have hnil : kds = [] := runGroups_noCol_ok hvn hrun
    subst hnil
    subst hs
    simp [mkTimeSeriesAnalysis]
  · intro jg hg hne
    cases hks : sortedKeys df jg with
    | nil => exact absurd hks hne
    | cons k ks =>
      refine decompose_series_runErr hg ?_
      show runGroups df jg v p (sortedKeys df jg) =
        Except.error (PyError.keyError v)
      rw [hks]
      unfold runGroups
      rw [processGroup_noCol hvn]

/-- **C4** counterexample — On a table with no rows and no "V" column,
`decompose_series` neither raises nor returns an error: it silently
returns the empty success state, although `value_col` is absent. -/
theorem c4_missing_value_col_counterexample :
    DataFrame.hasCol dfNoV "V" = false ∧
    decompose_series (mkTimeSeriesAnalysis dfNoV "G" "V" 12) =
      Except.ok (mkTimeSeriesAnalysis dfNoV "G" "V" 12) :=
  ⟨rfl, rfl⟩

/-- Witness for **C4** (amended) at the one-row table `dfC4`. -/
theorem c4_missing_value_col_witness :
    DataFrame.hasCol dfC4 "V" = false ∧
    decompose_series (mkTimeSeriesAnalysis dfC4 "G" "V" 12) =
      Except.error (PyError.keyError "V") :=
  ⟨rfl, (c4_missing_value_col dfC4 "G" "V" 12 rfl).2 0 rfl (by decide)⟩

/-- **C5** (amended) — `decompose_series` performs no period validation:
with a negative period every partition's decomposition dies with a
`ValueError` that the loop silently swallows, so whenever the call
returns normally it returns an empty results mapping and an empty
succeeded list — there is no fail-fast InvalidInput error. -/
theorem c5_negative_period (df : DataFrame) (g v : String) (p : Int)
    (hp : p < 0) :
    ∀ s', decompose_series (mkTimeSeriesAnalysis df g v p) = Except.ok s' →
      s'.results = [] ∧ s'.successful_groups = [] := by
  intro s' h
  obtain ⟨jg, kds, hg, hrun, hs⟩ := decompose_series_ok_inv h
  have hnil : kds = [] := runGroups_neg_period hp hrun
  subst hnil
  subst hs
  simp [mkTimeSeriesAnalysis]

/-- **C5** counterexample — With period −1 on a table whose two groups
each have two observations, `decompose_series` returns the silently
empty success state instead of failing fast with an InvalidInput error. -/
theorem c5_negative_period_counterexample :
    (-1 : Int) < 0 ∧
    decompose_series (mkTimeSeriesAnalysis dfBA "G" "V" (-1)) =
      Except.ok (mkTimeSeriesAnalysis dfBA "G" "V" (-1)) :=
  ⟨by decide, rfl⟩

/-- Witness for **C5** (amended) at `dfBA` with period −1. -/
theorem c5_negative_period_witness :
    ((-1 : Int) < 0) ∧
    ((mkTimeSeriesAnalysis dfBA "G" "V" (-1)).results = [] ∧
      (mkTimeSeriesAnalysis dfBA "G" "V" (-1)).successful_groups = []) :=
  ⟨by decide, c5_negative_period dfBA "G" "V" (-1) (by decide)
    (mkTimeSeriesAnalysis dfBA "G" "V" (-1)) rfl⟩

/-- **C6** — On any analysis state whose stored results all belong to the
succeeded list, looking up a group that is not in the succeeded list
returns `none` (Absent) and `plot_decomposition` only warns, leaving the
state unchanged; no error is raised. -/
theorem c6_lookup_safety (s : TimeSeriesAnalysis) (g : Cell)
    (hinv : ∀ kv ∈ s.results, kv.1 ∈ s.successful_groups)
    (hg : g ∉ s.successful_groups) :
    result_for s g = none ∧
    plot_decomposition s g = (s, PlotOutcome.warnMissing g) := by
  have hnone : result_for s g = none := by
    unfold result_for
    cases hf : s.results.find? (fun kv => decide (kv.1 = g)) with
    | none => rfl
    | some kv =>
      have hmem := List.mem_of_find?_eq_some hf
      have hpred := List.find?_some
        (p := fun kv : Cell × DecompositionResult => decide (kv.1 = g)) hf
      have hkg : kv.1 = g := of_decide_eq_true (by simpa using hpred)
      exact absurd (hkg ▸ hinv kv hmem) hg
  refine ⟨hnone, ?_⟩
  unfold plot_decomposition
  rw [hnone]

/-- Witness for **C6** at `goodState` and the absent key "B". -/
theorem c6_lookup_safety_witness :
    (∀ kv ∈ goodState.results, kv.1 ∈ goodState.successful_groups) ∧
    (Cell.strv "B") ∉ goodState.successful_groups ∧
    result_for goodState (Cell.strv "B") = none ∧
    plot_decomposition goodState (Cell.strv "B") =
      (goodState, PlotOutcome.warnMissing (Cell.strv "B")) :=
  ⟨by decide, by decide, c6_lookup_safety goodState _ (by decide) (by decide)⟩

/-- **C7** — Rows with a missing value are excluded, not imputed, before
decomposition: every group with a present, purely numeric value column,
a positive period and at least `2 * period` non-missing observations
succeeds, and its stored observed component is exactly the group's
non-missing values (with their own row labels as index). -/
theorem c7_missing_excluded (df : DataFrame) (g v : String) (p : Int)
    (jg jv : Nat) (k : Cell) (hg : colPos df g = some jg)
    (hv : colPos df v = some jv)
    (hnum : ∀ r ∈ df.rows, isStrCell (cellAt r jv) = false) (hp : 0 < p)
    (hk : k ∈ distinctGroups df jg)
    (hcount : 2 * p ≤ (nonNaCount df jg jv k : Int)) :
    ∃ s' d, decompose_series (mkTimeSeriesAnalysis df g v p) =
        Except.ok s' ∧
      k ∈ s'.successful_groups ∧ (k, d) ∈ s'.results ∧
      d.observed.vals = (groupSeries df jg jv k).map some ∧
      d.observed.index.entries = (cleanRows df jg jv k).map Row.idx := by
  obtain ⟨kds, hrun, hmap, hprops⟩ := runGroups_char hv hnum hp (sortedKeys df jg)
  have hksorted : k ∈ sortedKeys df jg := (sortedKeys_perm df jg).mem_iff.mpr hk
  have hkf : k ∈ kds.map Prod.fst := by
    rw [hmap]
    exact List.mem_filter.mpr ⟨hksorted, decide_eq_true hcount⟩
  obtain ⟨kd, hkd, hfst⟩ := List.mem_map.mp hkf
  have hobs := hprops kd hkd
  refine ⟨_, kd.2, decompose_series_eq hg hrun, ?_, ?_, ?_, ?_⟩
  · simp only [mkTimeSeriesAnalysis, List.nil_append]
    exact hkf
  · simp only [mkTimeSeriesAnalysis, List.nil_append]
    have heta : (k, kd.2) = kd := by rw [← hfst]
    rw [heta]
    exact hkd
  · rw [← hfst]
    exact hobs.1
  · rw [← hfst, hobs.2]
    rfl

/-- Witness for **C7**: the 36-month group "A" with one missing value
(35 ≥ 24 non-missing observations) still succeeds with period 12. -/
theorem c7_missing_excluded_witness :
    (2 * 12 ≤ (nonNaCount df36 0 1 (Cell.strv "A") : Int)) ∧
    ∃ s' d, decompose_series (mkTimeSeriesAnalysis df36 "G" "V" 12) =
        Except.ok s' ∧
      (Cell.strv "A") ∈ s'.successful_groups ∧
      (Cell.strv "A", d) ∈ s'.results ∧
      d.observed.vals = (groupSeries df36 0 1 (Cell.strv "A")).map some ∧
      d.observed.index.entries =
        (cleanRows df36 0 1 (Cell.strv "A")).map Row.idx :=
  ⟨by decide,
    c7_missing_excluded df36 "G" "V" 12 0 1 (Cell.strv "A") rfl rfl
      (by decide) (by decide) (by decide) (by decide)⟩

/-- **C8** (amended) — Plotting a stored result whose four component
indexes are already DatetimeIndexes leaves the analysis state unchanged;
when some component index is not a DatetimeIndex, `plot_decomposition`
replaces it in place by its coerced datetime conversion, mutating the
stored result. -/
theorem c8_plot_preserves (s : TimeSeriesAnalysis) (g : Cell)
    (d : DecompositionResult) (h : result_for s g = some d)
    (h1 : d.observed.index.datetime = true)
    (h2 : d.trend.index.datetime = true)
    (h3 : d.seasonal.index.datetime = true)
    (h4 : d.resid.index.datetime = true) :
    plot_decomposition s g = (s, PlotOutcome.plotted) := by
  have hc : coerceResult d = d := by
    unfold coerceResult coerceSeries
    rw [if_pos h1, if_pos h2, if_pos h3, if_pos h4]
  have hrepl : replaceFirst s.results g d = s.results := by
    apply replaceFirst_of_find?
    unfold result_for at h
    exact h
  simp only [plot_decomposition, h, hc, hrepl]

/-- **C8** counterexample — After decomposing `dfInt` (whose index is a
plain integer index), plotting group `1` mutates the stored result: the
observed component's index entries change from the original integer
labels to NaT-coerced datetime labels. -/
theorem c8_plot_counterexample :
    (result_for c8State (Cell.num 1)).map (fun d => d.observed.index) =
      some ⟨false, [IndexEntry.intv 0, IndexEntry.intv 1]⟩ ∧
    (result_for (plot_decomposition c8State (Cell.num 1)).1
        (Cell.num 1)).map (fun d => d.observed.index) =
      some ⟨true, [IndexEntry.naT, IndexEntry.naT]⟩ :=
  ⟨rfl, rfl⟩

/-- Witness for **C8** (amended) at `goodState`. -/
theorem c8_plot_preserves_witness :
    result_for goodState (Cell.strv "A") = some goodResult ∧
    plot_decomposition goodState (Cell.strv "A") =
      (goodState, PlotOutcome.plotted) :=
  ⟨rfl, c8_plot_preserves goodState (Cell.strv "A") goodResult rfl
    rfl rfl rfl rfl⟩
